import Mathlib

/-!
# Verification of the sync-settings-with-github extension core

A shallow embedding of the synchronization core of the
`sync-settings-with-github` VS Code extension:

* `GitService` (src/git/gitService.ts): push with pre-pull, conflict
  rollback and one automatic retry, force push/pull, change detection.
* `ExtensionService` (src/sync/extensionService.ts): reconciliation of
  the installed extension set against the synced `extensions.json` list.
* `SyncService` (src/sync/syncService.ts): the orchestrator — guarded
  `sync`, `forcePush`/`forcePull`, startup `initialize`, the debounced
  file-watcher pipeline and the file mirroring helpers.

Stateful TypeScript is embedded as explicit state passing; calls to the
external collaborators (git backend, file system, VS Code host) are
recorded as elements of an effect trace, and their outcomes are supplied
by oracle booleans so that every control path of the source is captured.
-/

namespace SyncSettings

/-- One call to an external collaborator, as observed from the
orchestrator (`SyncService`).  Each constructor corresponds to one
`await` of a collaborator method in `syncService.ts`. -/
inductive Effect where
  | gitPull
  | gitPush
  | gitForcePush
  | gitForcePull
  | copyToWorkingDir
  | copyFromWorkingDir
  | pushExtensions
  | pullExtensions
  deriving DecidableEq, Repr

namespace GitService

/-- Abstract state of the repository pair (local working tree plus the
configured remote) as relevant to `GitService.push`:
`localAhead` counts commits committed locally but absent from the
remote (unpushed commits); `remoteNew` counts commits on the remote
that the local branch has not yet integrated (a push is rejected
exactly when such commits exist). -/
structure RepoState where
  localAhead : Nat
  remoteNew : Nat
  deriving DecidableEq, Repr

/-- The user's answer to the push-failure prompt
(`'Pull and Retry' | 'Cancel'`, gitService.ts line 142). -/
inductive PushChoice where
  | pullAndRetry
  | cancel
  deriving DecidableEq, Repr

/-- Errors thrown by `GitService.push` (gitService.ts lines 105-184).
`reconcileFailed` is the terminal conflict error of line 172,
`pushCancelled` the error of line 175, and `gitOpFailed` a failure of
the pre-rejection git calls (pre-pull, first commit) that reaches only
the outer catch of line 178.  The outer catch re-wraps every thrown
error in a `Failed to push changes` message, preserving which failure
occurred; the constructors record that cause. -/
inductive PushError where
  | notInitialized
  | gitOpFailed
  | pushCancelled
  | reconcileFailed
  deriving DecidableEq, Repr

/-- Inputs that drive one `push()` invocation: the `pullBeforePush`
configuration flag; whether each fallible git call succeeds — the
optional pre-pull (gitService.ts line 120), the first commit
(line 127), the retry's rebase-pull (line 152) and the retry's
re-commit (line 156); whether the remote gains a foreign commit after
our (re)base and before each of the two push attempts (the race that
makes `git push` be rejected); and the user's choice in the failure
prompt.  (`git add .` has no failure mode at this level of
abstraction.) -/
structure PushEnv where
  shouldPullFirst : Bool
  firstPullOk : Bool
  firstCommitOk : Bool
  interferenceBeforeFirstPush : Bool
  choice : PushChoice
  retryPullOk : Bool
  retryCommitOk : Bool
  interferenceBeforeRetryPush : Bool
  deriving DecidableEq, Repr

/-- Model of `git pull --rebase`: integrates all remote commits, replaying the
local unpushed commits on top (gitService.ts lines 120, 152). -/
def pullRebase (s : RepoState) : RepoState :=
  { s with remoteNew := 0 }

/-- Model of `git add . && git commit`: records one further local commit
(gitService.ts lines 124-127, 155-156). -/
def commitAll (s : RepoState) : RepoState :=
  { s with localAhead := s.localAhead + 1 }

/-- Model of `git reset --hard HEAD~1`: drops the most recent local commit
(gitService.ts line 139). -/
def resetHardOne (s : RepoState) : RepoState :=
  { s with localAhead := s.localAhead - 1 }

/-- A foreign commit landing on the remote (the divergence that makes
the subsequent push be rejected) when `b` is true. -/
def interfere (b : Bool) (s : RepoState) : RepoState :=
  if b then { s with remoteNew := s.remoteNew + 1 } else s

/-- A successful `git push`: the local unpushed commits are now on the
remote, so none remain unpushed. -/
def pushSucceed (s : RepoState) : RepoState :=
  { s with localAhead := 0 }

/-- The method `GitService.push` (gitService.ts lines 105-184).
Optionally rebase-pulls (line 120; a failure reaches the outer catch),
stages and commits (lines 124-127; a commit failure likewise reaches
the outer catch before any commit exists), then attempts the push.  On
rejection it hard-resets the just-made commit away and prompts;
`Pull and Retry` re-enters a try block covering the rebase-pull,
re-stage, re-commit and second push (lines 151-159) whose catch
(lines 161-173) raises the terminal `reconcileFailed` error whichever
of those four calls failed — so a retry-pull or retry-commit failure
raises it with NO re-made commit (a conflicted rebase halts before
creating one), while a rejected second push raises it with the re-made
commit left in place; `Cancel` raises `pushCancelled`.  Returns the
outcome together with the final repository state. -/
def push (env : PushEnv) (initialized : Bool) (s₀ : RepoState) :
    Except PushError Unit × RepoState :=
  if initialized = false then (.error .notInitialized, s₀)
  else if env.shouldPullFirst ∧ env.firstPullOk = false then
    (.error .gitOpFailed, s₀)
  else
    let s₁ := if env.shouldPullFirst then pullRebase s₀ else s₀
    if env.firstCommitOk = false then (.error .gitOpFailed, s₁)
    else
      let s₂ := commitAll s₁
      let s₃ := interfere env.interferenceBeforeFirstPush s₂
      if s₃.remoteNew = 0 then (.ok (), pushSucceed s₃)
      else
        let s₅ := resetHardOne s₃
        match env.choice with
        | .cancel => (.error .pushCancelled, s₅)
        | .pullAndRetry =>
          if env.retryPullOk = false then (.error .reconcileFailed, s₅)
          else
            let s₆ := pullRebase s₅
            if env.retryCommitOk = false then (.error .reconcileFailed, s₆)
            else
              let s₇ := interfere env.interferenceBeforeRetryPush
                (commitAll s₆)
              if s₇.remoteNew = 0 then (.ok (), pushSucceed s₇)
              else (.error .reconcileFailed, s₇)

end GitService

namespace ExtensionService

/-- One record of the synced `extensions.json` file
(extensionService.ts, `ExtensionInfo`): identity is `id`. -/
structure ExtensionInfo where
  id : String
  version : Option String := none
  deriving DecidableEq, Repr

/-- One locally installed extension as seen through
`vscode.extensions.all`: its id and whether the host marks it built-in
(`packageJSON.isBuiltin`). -/
structure InstalledExtension where
  id : String
  isBuiltin : Bool
  deriving DecidableEq, Repr

/-- A host extension-management command issued by the reconciler
(`workbench.extensions.installExtension` /
`workbench.extensions.uninstallExtension`). -/
inductive ExtCommand where
  | install (id : String)
  | uninstall (id : String)
  deriving DecidableEq, Repr

/-- The method `ExtensionService.installMissingExtensions` (extensionService.ts
lines 318-338): the currently installed ids are taken from
`vscode.extensions.all` WITHOUT filtering out built-ins; every synced
record whose id is not installed yields one install command. -/
def installMissingExtensions (installed : List InstalledExtension)
    (synced : List ExtensionInfo) : List ExtCommand :=
  let currentIds := installed.map (·.id)
  (synced.filter (fun e => decide (e.id ∉ currentIds))).map
    (fun e => ExtCommand.install e.id)

/-- The `extraExtensions` list computed by
`ExtensionService.removeExtraExtensions` (extensionService.ts lines
341-343): installed, not built-in, and not among the synced ids. -/
def extraExtensions (synced : List ExtensionInfo)
    (installed : List InstalledExtension) : List InstalledExtension :=
  let syncedIds := synced.map (·.id)
  installed.filter (fun e => decide (e.isBuiltin = false ∧ e.id ∉ syncedIds))

/-- The method `ExtensionService.removeExtraExtensions` (extensionService.ts lines
340-361): one uninstall command per extra extension. -/
def removeExtraExtensions (synced : List ExtensionInfo)
    (installed : List InstalledExtension) : List ExtCommand :=
  (extraExtensions synced installed).map (fun e => ExtCommand.uninstall e.id)

/-- The method `ExtensionService.pullExtensions` (extensionService.ts lines
235-264).  `fileContents` is the result of `readSyncedExtensions`
(`none` when `extensions.json` is absent).  Returns the list of host
commands issued: nothing when sync is disabled or the file is absent;
otherwise the installs of the missing extensions followed, when
`autoRemove` is enabled, by the uninstalls of the extra ones. -/
def pullExtensions (shouldSync shouldAutoRemove : Bool)
    (fileContents : Option (List ExtensionInfo))
    (installed : List InstalledExtension) : List ExtCommand :=
  if shouldSync = false then []
  else
    match fileContents with
    | none => []
    | some synced =>
      installMissingExtensions installed synced ++
        (if shouldAutoRemove then removeExtraExtensions synced installed
         else [])

/-- The install/uninstall loop bodies (extensionService.ts lines
328-337 and 351-360): each command is attempted in order inside its own
try/catch, so an individual failure (given by the `fails` oracle) is
recorded but never stops the loop. -/
def attemptCommands (fails : String → Bool) :
    List ExtCommand → List (ExtCommand × Bool)
  | [] => []
  | ExtCommand.install i :: rest =>
    (ExtCommand.install i, !fails i) :: attemptCommands fails rest
  | ExtCommand.uninstall i :: rest =>
    (ExtCommand.uninstall i, !fails i) :: attemptCommands fails rest

end ExtensionService

namespace SyncService

/-- The mutable fields of the `SyncService` class (syncService.ts lines
13-20) that the claims are about, together with the collaborating
`GitService.initialized` flag.  `lastEventTime` is the per-path last
accepted event timestamp of the deduplication map of `setupFileWatcher`
(line 134; `lastEventTime.get(path) || 0` starts at 0); the claims are
about bursts on a single path, so one entry suffices.
`debounceDeadline` is the absolute expiry time of the pending debounce
timer, if any, and `firedTriggers` records the times at which the
debounce callback (copy-and-conditional-sync, lines 300-319) has
fired. -/
structure State where
  isEnabled : Bool
  isSyncing : Bool
  isApplyingRemoteChanges : Bool
  gitInitialized : Bool
  lastEventTime : Nat
  debounceDeadline : Option Nat
  firedTriggers : List Nat
  deriving DecidableEq, Repr

/-- Errors surfaced by the orchestrator: the not-initialized error of
`sync()` (syncService.ts line 494) and the git-level one, and a
generic wrapped collaborator failure. -/
inductive SyncError where
  | notInitialized
  | opFailed
  deriving DecidableEq, Repr

/-- Outcome oracles for the collaborator calls one `sync()` /
`forcePush()` / `forcePull()` invocation makes: the two
`gitService.hasChanges()` answers and whether each collaborator call
succeeds. -/
structure SyncEnv where
  hasLocalChanges : Bool
  hasRemoteChangesAfterPull : Bool
  copyToOk : Bool
  pushExtOk : Bool
  gitPushOk : Bool
  gitPullOk : Bool
  copyFromOk : Bool
  pullExtOk : Bool
  gitForcePushOk : Bool
  gitForcePullOk : Bool
  deriving DecidableEq, Repr

/-- The method `SyncService.sync` (syncService.ts lines 478-543).  Returns the
outcome and the trace of collaborator calls made.  Disabled → return
(line 480); already syncing → return (line 486); git service never
initialized → throw (line 491).  Otherwise: with local changes, mirror
live → working tree, push the extension snapshot, git push; without,
git pull and, only if the pull introduced changes, mirror working
tree → live and pull extensions.  A collaborator failure aborts the
rest of the pipeline and propagates (the `finally` merely releases the
`isSyncing` lock after a settle delay). -/
def sync (env : SyncEnv) (s : State) : Except SyncError Unit × List Effect :=
  if s.isEnabled = false then (.ok (), [])
  else if s.isSyncing = true then (.ok (), [])
  else if s.gitInitialized = false then (.error .notInitialized, [])
  else if env.hasLocalChanges then
    if env.copyToOk = false then
      (.error .opFailed, [.copyToWorkingDir])
    else if env.pushExtOk = false then
      (.error .opFailed, [.copyToWorkingDir, .pushExtensions])
    else if env.gitPushOk = false then
      (.error .opFailed, [.copyToWorkingDir, .pushExtensions, .gitPush])
    else (.ok (), [.copyToWorkingDir, .pushExtensions, .gitPush])
  else
    if env.gitPullOk = false then (.error .opFailed, [.gitPull])
    else if env.hasRemoteChangesAfterPull then
      if env.copyFromOk = false then
        (.error .opFailed, [.gitPull, .copyFromWorkingDir])
      else if env.pullExtOk = false then
        (.error .opFailed, [.gitPull, .copyFromWorkingDir, .pullExtensions])
      else (.ok (), [.gitPull, .copyFromWorkingDir, .pullExtensions])
    else (.ok (), [.gitPull])

/-- The method `SyncService.forcePush` (syncService.ts lines 545-559): mirror
live → working tree, push the extension snapshot, then
`gitService.forcePush()`.  No `isEnabled`/`isSyncing` guard is read;
the only gate is the initialized check inside `GitService.forcePush`
(gitService.ts line 188), which fires after the two mirroring steps. -/
def forcePush (env : SyncEnv) (s : State) :
    Except SyncError Unit × List Effect :=
  if env.copyToOk = false then (.error .opFailed, [.copyToWorkingDir])
  else if env.pushExtOk = false then
    (.error .opFailed, [.copyToWorkingDir, .pushExtensions])
  else if s.gitInitialized = false then
    (.error .notInitialized, [.copyToWorkingDir, .pushExtensions])
  else if env.gitForcePushOk = false then
    (.error .opFailed, [.copyToWorkingDir, .pushExtensions, .gitForcePush])
  else (.ok (), [.copyToWorkingDir, .pushExtensions, .gitForcePush])

/-- The method `SyncService.forcePull` (syncService.ts lines 561-576):
`gitService.forcePull()` (which checks the initialized flag first,
gitService.ts line 219), then mirror working tree → live, then pull
extensions.  No `isEnabled`/`isSyncing` guard is read. -/
def forcePull (env : SyncEnv) (s : State) :
    Except SyncError Unit × List Effect :=
  if s.gitInitialized = false then (.error .notInitialized, [])
  else if env.gitForcePullOk = false then (.error .opFailed, [.gitForcePull])
  else if env.copyFromOk = false then
    (.error .opFailed, [.gitForcePull, .copyFromWorkingDir])
  else if env.pullExtOk = false then
    (.error .opFailed, [.gitForcePull, .copyFromWorkingDir, .pullExtensions])
  else (.ok (), [.gitForcePull, .copyFromWorkingDir, .pullExtensions])

/-- Outcome oracles for one `SyncService.initialize` run: whether
`gitService.initialize()` succeeds, the `pullOnLaunch` configuration
flag, and the outcomes of the startup pull phase's collaborator
calls. -/
structure InitEnv where
  gitInitOk : Bool
  pullOnLaunch : Bool
  gitPullOk : Bool
  hasRemoteChanges : Bool
  copyFromOk : Bool
  pullExtOk : Bool
  deriving DecidableEq, Repr

/-- The body of the `try` block of the startup pull phase
(syncService.ts lines 83-97): pull, check for remote changes, and if
there are any, mirror working tree → live and pull extensions.
Returns the outcome and the collaborator calls actually made. -/
def startupPullPhase (env : InitEnv) : Except SyncError Unit × List Effect :=
  if env.gitPullOk = false then (.error .opFailed, [.gitPull])
  else if env.hasRemoteChanges = false then (.ok (), [.gitPull])
  else if env.copyFromOk = false then
    (.error .opFailed, [.gitPull, .copyFromWorkingDir])
  else if env.pullExtOk = false then
    (.error .opFailed, [.gitPull, .copyFromWorkingDir, .pullExtensions])
  else (.ok (), [.gitPull, .copyFromWorkingDir, .pullExtensions])

/-- What a completed `SyncService.initialize` has set up
(syncService.ts lines 106-110) together with the collaborator calls
the startup pull phase made. -/
structure InitResult where
  fileWatcherSetup : Bool
  periodicSyncSetup : Bool
  extensionWatcherSetup : Bool
  enabled : Bool
  startupEffects : List Effect
  deriving DecidableEq, Repr

/-- The method `SyncService.initialize` (syncService.ts lines 73-111).  A failure
of `gitService.initialize()` propagates (line 75 is outside any try).
When `pullOnLaunch` holds, the startup pull phase runs inside a
try/catch whose handler only logs (lines 98-101), so its error — from
the pull, the mirror, or the extension pull — is discarded; in every
case the watchers and the periodic scheduler are then set up and the
service is enabled. -/
def initService (env : InitEnv) : Except SyncError InitResult :=
  if env.gitInitOk = false then .error .opFailed
  else
    let pullEffects :=
      if env.pullOnLaunch then (startupPullPhase env).2 else []
    .ok { fileWatcherSetup := true, periodicSyncSetup := true,
          extensionWatcherSetup := true, enabled := true,
          startupEffects := pullEffects }

/-- The duplicate-suppression threshold of `setupFileWatcher`
(syncService.ts line 135), in milliseconds. -/
def EVENT_THRESHOLD : Nat := 100

/-- The passage of time up to instant `t`: if the pending debounce
timer's deadline has been reached, its callback fires (recorded in
`firedTriggers`) and the timer is gone. -/
def advanceTo (t : Nat) (s : State) : State :=
  match s.debounceDeadline with
  | some d =>
    if d ≤ t then
      { s with debounceDeadline := none, firedTriggers := s.firedTriggers ++ [d] }
    else s
  | none => s

/-- The method `SyncService.handleFileChange` (syncService.ts lines 280-321) at
instant `now`: if the service is disabled, a sync is in flight, or
remote changes are being applied, the event is dropped; otherwise any
pending debounce timer is cleared and a fresh one is armed to fire
`debounceDelay` from now. -/
def handleFileChange (debounceDelay : Nat) (now : Nat) (s : State) : State :=
  if s.isEnabled = false ∨ s.isSyncing = true ∨ s.isApplyingRemoteChanges = true
  then s
  else { s with debounceDeadline := some (now + debounceDelay) }

/-- The handler `handleFileEvent` (syncService.ts lines 137-150) at instant `now`:
an event on the watched path less than `EVENT_THRESHOLD` after the
last accepted one is skipped; otherwise the last-event time is updated
and `handleFileChange` runs. -/
def handleFileEvent (debounceDelay : Nat) (now : Nat) (s : State) : State :=
  if now - s.lastEventTime < EVENT_THRESHOLD then s
  else handleFileChange debounceDelay now { s with lastEventTime := now }

/-- Deliver a sequence of file events at the given instants, letting
the pending debounce timer fire whenever its deadline passes. -/
def processEvents (debounceDelay : Nat) (events : List Nat) (s : State) :
    State :=
  events.foldl (fun s t => handleFileEvent debounceDelay t (advanceTo t s)) s

/-- After the burst, let any still-pending debounce timer fire; the
result is the full list of instants at which the downstream
copy-and-conditional-sync trigger fired. -/
def flushTimer (s : State) : List Nat :=
  s.firedTriggers ++ (match s.debounceDeadline with
    | some d => [d]
    | none => [])

/-- The trigger times produced by delivering `events` to the watcher
pipeline from state `s` and then waiting the timer out. -/
def runBurst (debounceDelay : Nat) (events : List Nat) (s : State) :
    List Nat :=
  flushTimer (processEvents debounceDelay events s)

/-- The subsequence of events that survive the 100 ms deduplication of
`handleFileEvent`, given the last accepted event time `lastQ`
(initially 0, the default of `lastEventTime.get(path) || 0`). -/
def qualifyingTimes (lastQ : Nat) : List Nat → List Nat
  | [] => []
  | t :: ts =>
    if t - lastQ < EVENT_THRESHOLD then qualifyingTimes lastQ ts
    else t :: qualifyingTimes t ts

/-- The watcher state right after `initialize` has completed: service
enabled, no sync in flight, no pending debounce timer, no event seen
yet. -/
def initialWatcherState : State :=
  { isEnabled := true, isSyncing := false, isApplyingRemoteChanges := false,
    gitInitialized := true, lastEventTime := 0, debounceDeadline := none,
    firedTriggers := [] }

/-- Entry of `SyncService.copyFilesFromWorkingDir` (syncService.ts line
419): the first statement raises the `isApplyingRemoteChanges` flag, so
every state reached during the working-tree → live mirror (and until
the trailing 1 s release of line 471) carries the flag. -/
def copyFilesFromWorkingDirStart (s : State) : State :=
  { s with isApplyingRemoteChanges := true }

/-- One entry of a mirroring batch as `SyncService.copyFile`
(syncService.ts lines 395-416) sees it: whether the source path exists,
whether the source is external-style (contains `~` or is absolute,
line 404), and whether the actual `fs` copy succeeds when attempted. -/
structure CopySpec where
  sourceExists : Bool
  externalStyle : Bool
  fsCopyOk : Bool
  deriving DecidableEq, Repr

/-- What one `copyFile` call did. -/
inductive CopyOutcome where
  | copied
  | optionalMissingLogged
  | missingWarned
  deriving DecidableEq, Repr

/-- The method `SyncService.copyFile` (syncService.ts lines 395-416): an existing
source is copied (a file-system failure is wrapped and rethrown,
line 414); a missing external-style source is logged as optional and a
missing pattern-matched source is warned about — both return
normally. -/
def copyFile (f : CopySpec) : Except SyncError CopyOutcome :=
  if f.sourceExists then
    if f.fsCopyOk then .ok .copied else .error .opFailed
  else if f.externalStyle then .ok .optionalMissingLogged
  else .ok .missingWarned

/-- The copy loops of `copyFilesToWorkingDir` (syncService.ts lines
374-390): each entry is awaited in order; a thrown copy error
propagates and aborts the rest of the batch, a normal return
continues. -/
def copyBatch : List CopySpec → Except SyncError (List CopyOutcome)
  | [] => .ok []
  | f :: rest =>
    match copyFile f with
    | .error e => .error e
    | .ok o =>
      match copyBatch rest with
      | .error e => .error e
      | .ok os => .ok (o :: os)

/-- A `SyncEnv` in which every collaborator call succeeds, leaving only
the two `hasChanges` answers free: the setting of a run in which no
collaborator fails. -/
def okSyncEnv (localChanges remoteChanges : Bool) : SyncEnv :=
  { hasLocalChanges := localChanges,
    hasRemoteChangesAfterPull := remoteChanges,
    copyToOk := true, pushExtOk := true, gitPushOk := true,
    gitPullOk := true, copyFromOk := true, pullExtOk := true,
    gitForcePushOk := true, gitForcePullOk := true }

/-- State `s` with the three `sync()` guards passing: service enabled, no
sync in flight, git service initialized. -/
def guardsPassed (s : State) : State :=
  { s with isEnabled := true, isSyncing := false, gitInitialized := true }

/-- A watcher state in mid-burst: guards passing, last accepted event
at `q`, the debounce timer armed to fire at `q + delay`, nothing fired
yet. -/
def armedState (q delay : Nat) : State :=
  { isEnabled := true, isSyncing := false, isApplyingRemoteChanges := false,
    gitInitialized := true, lastEventTime := q,
    debounceDeadline := some (q + delay), firedTriggers := [] }

end SyncService

/-! ## Theorems -/

/-- C3: the method `sync()` with the service disabled returns normally and makes
no collaborator call; with a sync already in flight it returns normally
and makes no collaborator call (so neither the working tree nor the
remote is mutated); enabled, not syncing, but with the git service
never initialized, it throws the not-initialized error, having made no
collaborator call. -/
theorem sync_guard_behavior (env : SyncService.SyncEnv)
    (s : SyncService.State) :
    SyncService.sync env { s with isEnabled := false } = (.ok (), [])
  ∧ SyncService.sync env { s with isEnabled := true, isSyncing := true } =
      (.ok (), [])
  ∧ SyncService.sync env
      { s with isEnabled := true, isSyncing := false,
               gitInitialized := false } =
      (.error .notInitialized, []) := by
  refine ⟨?_, ?_, ?_⟩ <;> simp [SyncService.sync]

/-- C4: in a guard-passing `sync()` run whose collaborator calls all
succeed, local changes lead to mirror-live-to-working-tree, extension
snapshot write, git push — and no pull; no local changes lead to a
pull, followed by mirror-working-tree-to-live and extension pull
exactly when the pull introduced changes, and by nothing otherwise. -/
theorem sync_main_pipeline (remoteChanges : Bool) (s : SyncService.State) :
    (SyncService.sync (SyncService.okSyncEnv true remoteChanges)
        (SyncService.guardsPassed s) =
        (.ok (), [.copyToWorkingDir, .pushExtensions, .gitPush])
      ∧ Effect.gitPull ∉
        (SyncService.sync (SyncService.okSyncEnv true remoteChanges)
          (SyncService.guardsPassed s)).2)
  ∧ SyncService.sync (SyncService.okSyncEnv false true)
      (SyncService.guardsPassed s) =
      (.ok (), [.gitPull, .copyFromWorkingDir, .pullExtensions])
  ∧ SyncService.sync (SyncService.okSyncEnv false false)
      (SyncService.guardsPassed s) =
      (.ok (), [.gitPull]) := by
  refine ⟨⟨?_, ?_⟩, ?_, ?_⟩ <;>
    simp [SyncService.sync, SyncService.okSyncEnv, SyncService.guardsPassed]

/-- C9: the methods `forcePush()` and `forcePull()` read neither the `isEnabled`
nor the `isSyncing` guard: their behavior in a disabled, mid-sync state
is identical to any other state, and with the git service initialized
they run their full pipeline even in that state; when the git service
is not initialized, the git-level check is the only thing that stops
them — `forcePush` still performs its two mirroring steps first, while
`forcePull` stops at the leading git call. -/
theorem force_ops_bypass_guards (env : SyncService.SyncEnv)
    (s : SyncService.State) :
    SyncService.forcePush env
        { s with isEnabled := false, isSyncing := true } =
      SyncService.forcePush env s
  ∧ SyncService.forcePull env
        { s with isEnabled := false, isSyncing := true } =
      SyncService.forcePull env s
  ∧ SyncService.forcePush (SyncService.okSyncEnv true true)
      { s with isEnabled := false, isSyncing := true,
               gitInitialized := true } =
      (.ok (), [.copyToWorkingDir, .pushExtensions, .gitForcePush])
  ∧ SyncService.forcePull (SyncService.okSyncEnv true true)
      { s with isEnabled := false, isSyncing := true,
               gitInitialized := true } =
      (.ok (), [.gitForcePull, .copyFromWorkingDir, .pullExtensions])
  ∧ SyncService.forcePush (SyncService.okSyncEnv true true)
      { s with gitInitialized := false } =
      (.error .notInitialized, [.copyToWorkingDir, .pushExtensions])
  ∧ SyncService.forcePull (SyncService.okSyncEnv true true)
      { s with gitInitialized := false } =
      (.error .notInitialized, []) := by
  refine ⟨?_, ?_, ?_, ?_, ?_, ?_⟩ <;>
    simp [SyncService.forcePush, SyncService.forcePull,
      SyncService.okSyncEnv]

/-- C2: while the `isApplyingRemoteChanges` flag is set — as it is from
the first statement of `copyFilesFromWorkingDir` until the trailing
release — an inbound file-system event neither arms a debounce timer
nor fires a trigger: the change handler drops it. -/
theorem event_dropped_while_applying_remote (delay now : Nat)
    (s : SyncService.State) (h : s.isApplyingRemoteChanges = true) :
    (SyncService.handleFileEvent delay now s).debounceDeadline =
      s.debounceDeadline
  ∧ (SyncService.handleFileEvent delay now s).firedTriggers =
      s.firedTriggers
  ∧ (SyncService.copyFilesFromWorkingDirStart s).isApplyingRemoteChanges =
      true := by
  unfold SyncService.handleFileEvent SyncService.handleFileChange
  refine ⟨?_, ?_, rfl⟩ <;>
    · split
      · rfl
      · rw [if_pos (by simp [h])]

/-- C2 witness: a concrete state with the flag raised is dropped. -/
theorem event_dropped_while_applying_remote_witness :
    ({ SyncService.initialWatcherState with
        isApplyingRemoteChanges := true } :
      SyncService.State).isApplyingRemoteChanges = true
  ∧ (SyncService.handleFileEvent 5000 1000
      { SyncService.initialWatcherState with
        isApplyingRemoteChanges := true }).debounceDeadline =
      ({ SyncService.initialWatcherState with
        isApplyingRemoteChanges := true } :
        SyncService.State).debounceDeadline :=
  ⟨rfl, (event_dropped_while_applying_remote 5000 1000 _ rfl).1⟩

@[simp]
theorem interfere_localAhead (b : Bool) (s : GitService.RepoState) :
    (GitService.interfere b s).localAhead = s.localAhead := by
  unfold GitService.interfere
  split <;> rfl

@[simp]
theorem pullRebase_localAhead (s : GitService.RepoState) :
    (GitService.pullRebase s).localAhead = s.localAhead := rfl

@[simp]
theorem commitAll_localAhead (s : GitService.RepoState) :
    (GitService.commitAll s).localAhead = s.localAhead + 1 := rfl

@[simp]
theorem resetHardOne_localAhead (s : GitService.RepoState) :
    (GitService.resetHardOne s).localAhead = s.localAhead - 1 := rfl

/-- C1 counterexample: with `pullBeforePush` enabled, every git call
succeeding except the two pushes (a foreign commit lands before each
push attempt) and the user choosing `Pull and Retry`, `push()` raises
the terminal conflict error but the local repository keeps a new
unpushed commit (the retry's re-made commit), not zero. -/
theorem push_double_failure_cex :
    (GitService.push ⟨true, true, true, true, .pullAndRetry, true, true, true⟩
        true ⟨0, 0⟩).1 =
      Except.error GitService.PushError.reconcileFailed
  ∧ (GitService.push ⟨true, true, true, true, .pullAndRetry, true, true, true⟩
      true ⟨0, 0⟩).2.localAhead ≠ 0 := by
  refine ⟨rfl, ?_⟩
  decide

/-- C1 (amended): when `push()` raises the terminal conflict error
(first push rejected, automatic `Pull and Retry` also failed), the
FIRST rejected commit has always been rolled back by the hard reset,
but the repository is not guaranteed to hold zero new unpushed
commits: it holds exactly one — the retry's re-made commit, which is
never rolled back — when the retry's rebase-pull and re-commit
succeeded and its push was rejected, and zero when the retry failed
before re-committing (at its pull or commit). -/
theorem push_double_failure_at_most_one_unpushed (env : GitService.PushEnv)
    (ini : Bool) (s₀ : GitService.RepoState)
    (h : (GitService.push env ini s₀).1 =
      Except.error GitService.PushError.reconcileFailed) :
    (GitService.push env ini s₀).2.localAhead =
      if env.retryPullOk = true ∧ env.retryCommitOk = true
      then s₀.localAhead + 1 else s₀.localAhead := by
  obtain ⟨pf, fp, fc, i1, ch, rp, rc, i2⟩ := env
  cases ini with
  | false => simp [GitService.push] at h
  | true =>
    cases ch <;> cases pf <;> cases fp <;> cases fc <;> cases rp <;>
      cases rc <;> cases i1 <;> cases i2 <;>
      by_cases hr : s₀.remoteNew = 0 <;>
      simp_all [GitService.push, GitService.interfere, GitService.pullRebase,
        GitService.commitAll, GitService.resetHardOne, GitService.pushSucceed]

/-- C1 witness: the amended theorem at two concrete inputs — a
rejected retry push (one unpushed commit remains) and a failed retry
pull (zero remain). -/
theorem push_double_failure_at_most_one_unpushed_witness :
    (GitService.push ⟨true, true, true, true, .pullAndRetry, true, true, true⟩
        true ⟨0, 0⟩).1 =
      Except.error GitService.PushError.reconcileFailed
  ∧ (GitService.push ⟨true, true, true, true, .pullAndRetry, true, true, true⟩
      true ⟨0, 0⟩).2.localAhead = 1
  ∧ (GitService.push ⟨true, true, true, true, .pullAndRetry, false, true, true⟩
        true ⟨0, 0⟩).1 =
      Except.error GitService.PushError.reconcileFailed
  ∧ (GitService.push ⟨true, true, true, true, .pullAndRetry, false, true, true⟩
      true ⟨0, 0⟩).2.localAhead = 0 := by
  refine ⟨rfl, ?_, rfl, ?_⟩
  · have h := push_double_failure_at_most_one_unpushed
      ⟨true, true, true, true, .pullAndRetry, true, true, true⟩ true ⟨0, 0⟩ rfl
    simpa using h
  · have h := push_double_failure_at_most_one_unpushed
      ⟨true, true, true, true, .pullAndRetry, false, true, true⟩ true ⟨0, 0⟩ rfl
    simpa using h

theorem attemptCommands_map_fst (fails : String → Bool)
    (cmds : List ExtensionService.ExtCommand) :
    (ExtensionService.attemptCommands fails cmds).map Prod.fst = cmds := by
  induction cmds with
  | nil => rfl
  | cons c rest ih =>
    cases c <;> simp [ExtensionService.attemptCommands, ih]

/-- C6: the method `pullExtensions()` issues no command when extension sync is
disabled or the extensions file is absent; otherwise it installs
exactly the synced ids not currently installed, uninstalls — only under
`autoRemove` — exactly the non-built-in installed ids not in the synced
list, and every computed command is attempted regardless of which
individual install/uninstall operations fail. -/
theorem pullExtensions_reconciles (ar : Bool)
    (S : List ExtensionService.ExtensionInfo)
    (I : List ExtensionService.InstalledExtension)
    (fc : Option (List ExtensionService.ExtensionInfo))
    (fails : String → Bool) :
    ExtensionService.pullExtensions false ar fc I = []
  ∧ ExtensionService.pullExtensions true ar none I = []
  ∧ (∀ i : String,
      ExtensionService.ExtCommand.install i ∈
          ExtensionService.pullExtensions true ar (some S) I ↔
        ((∃ e ∈ S, e.id = i) ∧ i ∉ I.map (·.id)))
  ∧ (∀ i : String,
      ExtensionService.ExtCommand.uninstall i ∈
          ExtensionService.pullExtensions true ar (some S) I ↔
        (ar = true ∧
          ∃ e ∈ I, e.id = i ∧ e.isBuiltin = false ∧ i ∉ S.map (·.id)))
  ∧ (ExtensionService.attemptCommands fails
        (ExtensionService.pullExtensions true ar (some S) I)).map
          Prod.fst =
      ExtensionService.pullExtensions true ar (some S) I := by
  refine ⟨rfl, rfl, ?_, ?_, attemptCommands_map_fst _ _⟩
  · intro i
    cases ar <;>
      · simp [ExtensionService.pullExtensions,
          ExtensionService.installMissingExtensions,
          ExtensionService.removeExtraExtensions,
          ExtensionService.extraExtensions]
        constructor
        · rintro ⟨e, ⟨he, hni⟩, rfl⟩
          exact ⟨⟨e, he, rfl⟩, hni⟩
        · rintro ⟨⟨e, he, rfl⟩, hni⟩
          exact ⟨e, ⟨he, hni⟩, rfl⟩
  · intro i
    cases ar <;>
      simp [ExtensionService.pullExtensions,
        ExtensionService.installMissingExtensions,
        ExtensionService.removeExtraExtensions,
        ExtensionService.extraExtensions]
    constructor
    · rintro ⟨e, ⟨he, hb, hns⟩, rfl⟩
      exact ⟨e, he, rfl, hb, hns⟩
    · rintro ⟨e, he, rfl, hb, hns⟩
      exact ⟨e, ⟨he, hb, hns⟩, rfl⟩

/-- C10: the install diff of `pullExtensions()` compares against ALL
installed extensions, built-ins included, so an installed built-in's id
is never the subject of an install command even when it appears in the
synced list; and the extra-extension computation filters built-ins out,
so an installed built-in is never selected for uninstallation, whatever
the synced list. -/
theorem builtin_never_touched (S : List ExtensionService.ExtensionInfo)
    (I : List ExtensionService.InstalledExtension)
    (e : ExtensionService.InstalledExtension) (he : e ∈ I)
    (hb : e.isBuiltin = true) :
    ExtensionService.ExtCommand.install e.id ∉
      ExtensionService.installMissingExtensions I S
  ∧ e ∉ ExtensionService.extraExtensions S I := by
  constructor
  · intro hmem
    simp [ExtensionService.installMissingExtensions] at hmem
    obtain ⟨x, ⟨_, hni⟩, hid⟩ := hmem
    exact hni e he hid.symm
  · intro hmem
    simp [ExtensionService.extraExtensions] at hmem
    exact absurd hb (by simp [hmem.2.1])

/-- C10 witness: a built-in extension listed in the synced file is
neither reinstalled nor uninstalled. -/
theorem builtin_never_touched_witness :
    (⟨"vscode.git", true⟩ : ExtensionService.InstalledExtension) ∈
      [(⟨"vscode.git", true⟩ : ExtensionService.InstalledExtension)]
  ∧ (⟨"vscode.git", true⟩ :
      ExtensionService.InstalledExtension).isBuiltin = true
  ∧ ExtensionService.ExtCommand.install "vscode.git" ∉
      ExtensionService.installMissingExtensions
        [⟨"vscode.git", true⟩] [⟨"vscode.git", none⟩]
  ∧ (⟨"vscode.git", true⟩ : ExtensionService.InstalledExtension) ∉
      ExtensionService.extraExtensions [⟨"vscode.git", none⟩]
        [⟨"vscode.git", true⟩] := by
  refine ⟨List.mem_singleton.mpr rfl, rfl, ?_, ?_⟩
  · exact (builtin_never_touched [⟨"vscode.git", none⟩]
      [⟨"vscode.git", true⟩] ⟨"vscode.git", true⟩
      (List.mem_singleton.mpr rfl) rfl).1
  · exact (builtin_never_touched [⟨"vscode.git", none⟩]
      [⟨"vscode.git", true⟩] ⟨"vscode.git", true⟩
      (List.mem_singleton.mpr rfl) rfl).2

/-- C7: whenever `gitService.initialize()` itself succeeds, every
failure inside the startup pull phase — the pull, the working-tree-to-
live mirror, or the extension pull — is swallowed: `initialize()`
still returns successfully with the file watchers, the periodic
scheduler and the extension watcher set up and the service enabled. -/
theorem init_swallows_startup_pull_failures (env : SyncService.InitEnv)
    (h : env.gitInitOk = true) :
    ∃ r, SyncService.initService env = Except.ok r
      ∧ r.fileWatcherSetup = true
      ∧ r.periodicSyncSetup = true
      ∧ r.extensionWatcherSetup = true
      ∧ r.enabled = true := by
  refine ⟨⟨true, true, true, true,
    if env.pullOnLaunch then (SyncService.startupPullPhase env).2 else []⟩,
    ?_, rfl, rfl, rfl, rfl⟩
  simp [SyncService.initService, h]

/-- C7 witness: the startup pull itself fails, yet initialization
completes with everything set up and the service enabled. -/
theorem init_swallows_startup_pull_failures_witness :
    (SyncService.startupPullPhase ⟨true, true, false, true, true, true⟩).1 =
      Except.error SyncService.SyncError.opFailed
  ∧ ∃ r, SyncService.initService ⟨true, true, false, true, true, true⟩ =
        Except.ok r
      ∧ r.fileWatcherSetup = true
      ∧ r.periodicSyncSetup = true
      ∧ r.extensionWatcherSetup = true
      ∧ r.enabled = true :=
  ⟨rfl, init_swallows_startup_pull_failures
    ⟨true, true, false, true, true, true⟩ rfl⟩

theorem copyBatch_total (batch : List SyncService.CopySpec)
    (hok : ∀ g ∈ batch, g.sourceExists = true → g.fsCopyOk = true) :
    ∃ outs, SyncService.copyBatch batch = Except.ok outs
      ∧ outs.length = batch.length := by
  induction batch with
  | nil => exact ⟨[], rfl, rfl⟩
  | cons g rest ih =>
    obtain ⟨outs, houts, hlen⟩ :=
      ih (fun x hx => hok x (List.mem_cons_of_mem g hx))
    have hg : ∃ o, SyncService.copyFile g = Except.ok o := by
      unfold SyncService.copyFile
      by_cases hex : g.sourceExists = true
      · rw [if_pos hex, if_pos (hok g (List.mem_cons_self g rest) hex)]
        exact ⟨_, rfl⟩
      · rw [if_neg hex]
        split <;> exact ⟨_, rfl⟩
    obtain ⟨o, ho⟩ := hg
    refine ⟨o :: outs, ?_, by simp [hlen]⟩
    unfold SyncService.copyBatch
    rw [ho, houts]

/-- C8: the method `copyFile` returns normally whenever the source path does not
exist — a missing external-style source is merely logged as optional
and a missing pattern-matched source merely warned about — and a batch
in which the sources that do exist copy cleanly completes every one of
its entries, however many sources are missing. -/
theorem copy_missing_source_nonfatal (f : SyncService.CopySpec)
    (batch : List SyncService.CopySpec)
    (hmiss : f.sourceExists = false)
    (hok : ∀ g ∈ batch, g.sourceExists = true → g.fsCopyOk = true) :
    SyncService.copyFile f =
      Except.ok (if f.externalStyle then .optionalMissingLogged
        else .missingWarned)
  ∧ ∃ outs, SyncService.copyBatch batch = Except.ok outs
      ∧ outs.length = batch.length := by
  refine ⟨?_, copyBatch_total batch hok⟩
  unfold SyncService.copyFile
  rw [if_neg (by simp [hmiss])]
  split <;> simp_all

/-- C8 witness: a batch of an existing settings file, a missing
pattern-matched file and a missing external file completes all three
entries. -/
theorem copy_missing_source_nonfatal_witness :
    (⟨false, false, true⟩ : SyncService.CopySpec).sourceExists = false
  ∧ SyncService.copyFile ⟨false, false, true⟩ =
      Except.ok SyncService.CopyOutcome.missingWarned
  ∧ ∃ outs, SyncService.copyBatch
        [⟨true, false, true⟩, ⟨false, false, true⟩, ⟨false, true, true⟩] =
        Except.ok outs
      ∧ outs.length = 3 := by
  have h := copy_missing_source_nonfatal ⟨false, false, true⟩
    [⟨true, false, true⟩, ⟨false, false, true⟩, ⟨false, true, true⟩]
    rfl (by intro g hg hex; fin_cases hg <;> simp_all)
  exact ⟨rfl, h.1, h.2⟩

theorem processEvents_cons (delay t : Nat) (ts : List Nat)
    (s : SyncService.State) :
    SyncService.processEvents delay (t :: ts) s =
      SyncService.processEvents delay ts
        (SyncService.handleFileEvent delay t (SyncService.advanceTo t s)) :=
  rfl

theorem processEvents_armed (delay : Nat)
    (hdelay : SyncService.EVENT_THRESHOLD ≤ delay) :
    ∀ (events : List Nat) (q : Nat),
      List.Chain' (fun a b => b - a < delay)
        (q :: SyncService.qualifyingTimes q events) →
      SyncService.processEvents delay events
          (SyncService.armedState q delay) =
        SyncService.armedState
          ((SyncService.qualifyingTimes q events).getLastD q) delay := by
  intro events
  simp only [SyncService.EVENT_THRESHOLD] at hdelay
  induction events with
  | nil => intro q _; rfl
  | cons t ts ih =>
    intro q hchain
    by_cases hsk : t - q < SyncService.EVENT_THRESHOLD
    · have hsk' : t - q < 100 := by
        simpa [SyncService.EVENT_THRESHOLD] using hsk
      have hqe : SyncService.qualifyingTimes q (t :: ts) =
          SyncService.qualifyingTimes q ts := by
        simp [SyncService.qualifyingTimes, hsk]
      have hfire : ¬ (q + delay ≤ t) := by omega
      have hstep : SyncService.handleFileEvent delay t
          (SyncService.advanceTo t (SyncService.armedState q delay)) =
          SyncService.armedState q delay := by
        simp [SyncService.advanceTo, SyncService.armedState,
          SyncService.handleFileEvent, hfire, hsk]
      rw [processEvents_cons, hstep, hqe]
      exact ih q (by rwa [hqe] at hchain)
    · have hsk' : ¬ (t - q < 100) := by
        simpa [SyncService.EVENT_THRESHOLD] using hsk
      have hqe : SyncService.qualifyingTimes q (t :: ts) =
          t :: SyncService.qualifyingTimes t ts := by
        simp [SyncService.qualifyingTimes, hsk]
      rw [hqe] at hchain
      obtain ⟨hqt, hchain'⟩ := List.chain'_cons.mp hchain
      have hfire : ¬ (q + delay ≤ t) := by omega
      have hstep : SyncService.handleFileEvent delay t
          (SyncService.advanceTo t (SyncService.armedState q delay)) =
          SyncService.armedState t delay := by
        simp [SyncService.advanceTo, SyncService.armedState,
          SyncService.handleFileEvent, SyncService.handleFileChange,
          hfire, hsk]
      rw [processEvents_cons, hstep]
      rw [ih t hchain', hqe, List.getLastD_cons]

/-- C5 counterexample: two events on one path 90 ms apart — well
within the debounce delay — produce exactly one trigger, but it fires
`debounceDelay` after the FIRST event (time 6000), not after the last
event of the burst (which would be 1090 + 5000 = 6090): the second
event was deduplicated by the 100 ms threshold and did not restart the
timer. -/
theorem debounce_timed_from_last_event_cex :
    SyncService.runBurst 5000 [1000, 1090]
        SyncService.initialWatcherState = [6000]
  ∧ (6000 : Nat) ≠ 1090 + 5000 := by
  constructor
  · rfl
  · decide

/-- C5 (amended): for a burst of same-path events whose qualifying
events — those at least `EVENT_THRESHOLD` (100 ms) after the previously
accepted one, starting from the path's initial timestamp 0 — are each
less than the debounce delay after the previous qualifying one, exactly
one downstream copy-and-conditional-sync trigger fires, `debounceDelay`
after the last QUALIFYING event of the burst; each qualifying event
cancels and restarts the pending timer, while deduplicated events leave
it untouched. -/
theorem debounce_single_trigger (delay : Nat) (events : List Nat)
    (hdelay : SyncService.EVENT_THRESHOLD ≤ delay)
    (hq : SyncService.qualifyingTimes 0 events ≠ [])
    (hchain : List.Chain' (fun a b => b - a < delay)
      (SyncService.qualifyingTimes 0 events)) :
    SyncService.runBurst delay events SyncService.initialWatcherState =
      [(SyncService.qualifyingTimes 0 events).getLastD 0 + delay] := by
  induction events with
  | nil => simp [SyncService.qualifyingTimes] at hq
  | cons t ts ih =>
    by_cases hsk : t - 0 < SyncService.EVENT_THRESHOLD
    · have hsk' : t - 0 < SyncService.EVENT_THRESHOLD := hsk
      rw [Nat.sub_zero] at hsk'
      have hqe : SyncService.qualifyingTimes 0 (t :: ts) =
          SyncService.qualifyingTimes 0 ts := by
        simp [SyncService.qualifyingTimes, hsk']
      have hstep : SyncService.handleFileEvent delay t
          (SyncService.advanceTo t SyncService.initialWatcherState) =
          SyncService.initialWatcherState := by
        simp [SyncService.advanceTo, SyncService.initialWatcherState,
          SyncService.handleFileEvent, hsk']
      rw [hqe] at hq hchain
      have hburst : SyncService.runBurst delay (t :: ts)
          SyncService.initialWatcherState =
          SyncService.runBurst delay ts SyncService.initialWatcherState := by
        unfold SyncService.runBurst
        rw [processEvents_cons, hstep]
      rw [hburst, hqe]
      exact ih hq hchain
    · have hsk' : ¬ t < SyncService.EVENT_THRESHOLD := by
        rwa [Nat.sub_zero] at hsk
      have hqe : SyncService.qualifyingTimes 0 (t :: ts) =
          t :: SyncService.qualifyingTimes t ts := by
        simp [SyncService.qualifyingTimes, hsk']
      have hstep : SyncService.handleFileEvent delay t
          (SyncService.advanceTo t SyncService.initialWatcherState) =
          SyncService.armedState t delay := by
        simp [SyncService.advanceTo, SyncService.initialWatcherState,
          SyncService.handleFileEvent, SyncService.handleFileChange,
          SyncService.armedState, hsk']
      rw [hqe] at hchain
      rw [hqe, List.getLastD_cons]
      unfold SyncService.runBurst
      rw [processEvents_cons, hstep,
        processEvents_armed delay hdelay ts t hchain]
      simp [SyncService.flushTimer, SyncService.armedState]

/-- C5 witness: a three-event burst — the middle event deduplicated,
the third qualifying — fires exactly one trigger, 5000 ms after the
last qualifying event (1200). -/
theorem debounce_single_trigger_witness :
    SyncService.EVENT_THRESHOLD ≤ 5000
  ∧ SyncService.qualifyingTimes 0 [1000, 1090, 1200] ≠ []
  ∧ SyncService.runBurst 5000 [1000, 1090, 1200]
      SyncService.initialWatcherState = [6200] := by
  have hqv : SyncService.qualifyingTimes 0 [1000, 1090, 1200] =
      [1000, 1200] := by decide
  refine ⟨by decide, by decide, ?_⟩
  have h := debounce_single_trigger 5000 [1000, 1090, 1200]
    (by decide) (by decide)
    (by
      rw [hqv]
      exact List.chain'_cons.mpr ⟨by norm_num, List.chain'_singleton _⟩)
  rw [h]
  decide

end SyncSettings
